import Mathlib

/-!
Verification of the soundboard Audio Session State Manager.

Shallow embedding of:
  * `src/utils/audioFade.ts` (fade engine: `fadeIn`, `fadeOut`),
  * `src/api/sounds.ts` (audio-element registry `getOrCreateAudioElement`,
    optimistic cache updates `addSoundToCachedMap` / `removeSoundFromCachedMap`),
  * `src/context/SavedSoundsContext.tsx` (session store: `getStoredSounds`,
    `addSound`, `removeSound`, `clearAllSounds`, `reorderSounds`,
    `setSoundVolume`, `setSoundLoop`, `setMasterVolume`, and the derived
    `savedSoundsMap` mixer view).

JavaScript numbers are modelled as rationals (ℚ); JavaScript objects and
`Map`s keyed by sound ids are modelled as association lists over `String`.
-/

set_option autoImplicit false

namespace Soundboard

universe u

variable {α : Type u}

/-- JS object / `Map` read: first entry with the given key (keys are unique
in every map the program builds, so first-match agrees with JS semantics). -/
def alLookup (k : String) : List (String × α) → Option α
  | [] => none
  | p :: rest => if p.1 = k then some p.2 else alLookup k rest

/-- JS `Map.set` / object-spread update: replace the entry in place when the
key is present, otherwise append the new entry at the end. -/
def alInsert (k : String) (v : α) : List (String × α) → List (String × α)
  | [] => [(k, v)]
  | p :: rest => if p.1 = k then (k, v) :: rest else p :: alInsert k v rest

/-- JS `delete obj[k]` / `Map.delete`: drop every entry with the key. -/
def alErase (k : String) (l : List (String × α)) : List (String × α) :=
  l.filter (fun p => p.1 != k)

@[simp]
theorem alLookup_alInsert_self (k : String) (v : α) (l : List (String × α)) :
    alLookup k (alInsert k v l) = some v := by
  induction l with
  | nil => simp [alInsert, alLookup]
  | cons p rest ih =>
    by_cases h : p.1 = k
    · simp [alInsert, alLookup, h]
    · simp [alInsert, alLookup, h, ih]

theorem mem_alInsert {k : String} {v : α} {l : List (String × α)} {p : String × α}
    (hp : p ∈ alInsert k v l) : p = (k, v) ∨ p ∈ l := by
  induction l with
  | nil => simpa [alInsert] using hp
  | cons q rest ih =>
    simp only [alInsert] at hp
    by_cases h : q.1 = k
    · rw [if_pos h] at hp
      rcases List.mem_cons.mp hp with hp1 | hp1
      · exact Or.inl hp1
      · exact Or.inr (List.mem_cons_of_mem _ hp1)
    · rw [if_neg h] at hp
      rcases List.mem_cons.mp hp with hp1 | hp1
      · exact Or.inr (hp1 ▸ List.mem_cons_self _ _)
      · rcases ih hp1 with hp2 | hp2
        · exact Or.inl hp2
        · exact Or.inr (List.mem_cons_of_mem _ hp2)

@[simp]
theorem alLookup_alErase_self (k : String) (l : List (String × α)) :
    alLookup k (alErase k l) = none := by
  induction l with
  | nil => rfl
  | cons p rest ih =>
    by_cases h : p.1 = k
    · simpa [alErase, List.filter_cons, h] using ih
    · simpa [alErase, List.filter_cons, bne_iff_ne, h, alLookup] using ih

/-! ## Fade Engine (`src/utils/audioFade.ts`)

Each `setInterval` tick reads the elapsed wall-clock time, clamps the linear
progress to `[0, 1]` and writes the interpolated volume; when progress
reaches `1` the tick writes the exact end volume and resolves. -/

/-- `FADE_DURATION_MS = 200` (1/5 second). -/
def FADE_DURATION_MS : ℚ := 200

/-- The volume one fade tick writes: linear interpolation from `startVolume`
to `endVolume` with progress `min (elapsed / duration) 1`. -/
def fadeTickVolume (startVolume endVolume duration elapsed : ℚ) : ℚ :=
  startVolume + (endVolume - startVolume) * min (elapsed / duration) 1

/-- `fadeIn audio targetVolume`: ramps from `startVolume = 0` to
`endVolume = targetVolume` over `FADE_DURATION_MS`; this is the volume its
tick at elapsed time `elapsed` writes to `audio.volume`. -/
def fadeInVolume (targetVolume elapsed : ℚ) : ℚ :=
  fadeTickVolume 0 targetVolume FADE_DURATION_MS elapsed

/-- `fadeOut audio`: ramps from the volume at invocation time
(`startVolume = audio.volume`) to `endVolume = 0` over `FADE_DURATION_MS`. -/
def fadeOutVolume (startVolume elapsed : ℚ) : ℚ :=
  fadeTickVolume startVolume 0 FADE_DURATION_MS elapsed

theorem fadeTickVolume_props (a b D e e' : ℚ) (hD : 0 < D) (he : 0 ≤ e)
    (hee : e ≤ e') :
    (a ≤ b → fadeTickVolume a b D e ≤ fadeTickVolume a b D e') ∧
    (b ≤ a → fadeTickVolume a b D e' ≤ fadeTickVolume a b D e) ∧
    min a b ≤ fadeTickVolume a b D e ∧
    fadeTickVolume a b D e ≤ max a b ∧
    (D ≤ e → fadeTickVolume a b D e = b) := by
  have hp0 : 0 ≤ min (e / D) 1 := le_min (div_nonneg he hD.le) zero_le_one
  have hp1 : min (e / D) 1 ≤ 1 := min_le_right _ _
  have hpp : min (e / D) 1 ≤ min (e' / D) 1 := by
    apply min_le_min _ le_rfl
    gcongr
  refine ⟨?_, ?_, ?_, ?_, ?_⟩
  · intro hab
    unfold fadeTickVolume
    have := mul_le_mul_of_nonneg_left hpp (sub_nonneg.mpr hab)
    linarith
  · intro hba
    unfold fadeTickVolume
    have := mul_le_mul_of_nonneg_left hpp (sub_nonneg.mpr hba)
    nlinarith
  · unfold fadeTickVolume
    rcases le_total a b with hab | hba
    · have := mul_nonneg (sub_nonneg.mpr hab) hp0
      have hmin : min a b = a := min_eq_left hab
      linarith
    · have := mul_le_mul_of_nonneg_left hp1 (sub_nonneg.mpr hba)
      have hmin : min a b = b := min_eq_right hba
      nlinarith
  · unfold fadeTickVolume
    rcases le_total a b with hab | hba
    · have := mul_le_mul_of_nonneg_left hp1 (sub_nonneg.mpr hab)
      have hmax : max a b = b := max_eq_right hab
      nlinarith
    · have := mul_nonneg (sub_nonneg.mpr hba) hp0
      have hmax : max a b = a := max_eq_left hba
      nlinarith
  · intro hDe
    have h1 : 1 ≤ e / D := (one_le_div hD).mpr hDe
    unfold fadeTickVolume
    rw [min_eq_right h1]
    ring

/-- C7: during every fade the per-tick volumes are monotone in elapsed time
(non-decreasing for `fadeIn`, where the target exceeds the start `0`;
non-increasing for `fadeOut`, toward `0`), every written volume lies inside
the interval between the two endpoints, and once the elapsed time reaches
`FADE_DURATION_MS` the written volume is exactly the end volume. -/
theorem fade_monotone_bounded_exact (target start e e' : ℚ) (he : 0 ≤ e)
    (hee : e ≤ e') :
    (0 ≤ target →
      fadeInVolume target e ≤ fadeInVolume target e' ∧
      0 ≤ fadeInVolume target e ∧ fadeInVolume target e ≤ target ∧
      (FADE_DURATION_MS ≤ e → fadeInVolume target e = target)) ∧
    (0 ≤ start →
      fadeOutVolume start e' ≤ fadeOutVolume start e ∧
      0 ≤ fadeOutVolume start e ∧ fadeOutVolume start e ≤ start ∧
      (FADE_DURATION_MS ≤ e → fadeOutVolume start e = 0)) := by
  have hD : (0 : ℚ) < FADE_DURATION_MS := by norm_num [FADE_DURATION_MS]
  constructor
  · intro ht
    obtain ⟨h1, _, h3, h4, h5⟩ :=
      fadeTickVolume_props 0 target FADE_DURATION_MS e e' hD he hee
    refine ⟨h1 ht, ?_, ?_, h5⟩
    · simpa [min_eq_left ht] using h3
    · simpa [max_eq_right ht] using h4
  · intro hs
    obtain ⟨_, h2, h3, h4, h5⟩ :=
      fadeTickVolume_props start 0 FADE_DURATION_MS e e' hD he hee
    refine ⟨h2 hs, ?_, ?_, h5⟩
    · simpa [min_eq_right hs] using h3
    · simpa [max_eq_left hs] using h4

/-- Witness for C7 at a concrete fade: target volume `1/2`, elapsed times
`50` and `100` milliseconds. -/
theorem fade_monotone_bounded_exact_witness :
    (0 : ℚ) ≤ 50 ∧ (50 : ℚ) ≤ 100 ∧
    ((0 : ℚ) ≤ 1 / 2 →
      fadeInVolume (1 / 2) 50 ≤ fadeInVolume (1 / 2) 100 ∧
      0 ≤ fadeInVolume (1 / 2) 50 ∧ fadeInVolume (1 / 2) 50 ≤ 1 / 2 ∧
      (FADE_DURATION_MS ≤ 50 → fadeInVolume (1 / 2) 50 = 1 / 2)) ∧
    ((0 : ℚ) ≤ 1 / 2 →
      fadeOutVolume (1 / 2) 100 ≤ fadeOutVolume (1 / 2) 50 ∧
      0 ≤ fadeOutVolume (1 / 2) 50 ∧ fadeOutVolume (1 / 2) 50 ≤ 1 / 2 ∧
      (FADE_DURATION_MS ≤ 50 → fadeOutVolume (1 / 2) 50 = 0)) :=
  ⟨by norm_num, by norm_num,
    (fade_monotone_bounded_exact (1 / 2) (1 / 2) 50 100 (by norm_num)
      (by norm_num)).1,
    (fade_monotone_bounded_exact (1 / 2) (1 / 2) 50 100 (by norm_num)
      (by norm_num)).2⟩

/-! ## Playable Registry (`src/api/sounds.ts`, `getOrCreateAudioElement`)

`audioElementRegistry` is a module-level `Map<string, HTMLAudioElement>`.
An `HTMLAudioElement` is modelled by a creation stamp `inst` (distinguishing
instances), its bound source locator `src`, and its `paused` flag; a freshly
constructed element is paused. -/

structure AudioElem where
  inst : Nat
  src : String
  paused : Bool
deriving DecidableEq

structure Registry where
  elems : List (String × AudioElem)
  nextInst : Nat
deriving DecidableEq

structure GetOrCreateResult where
  audio : AudioElem
  registry : Registry
  stopped : Option AudioElem
deriving DecidableEq

/-- Every registered element was created before the next creation stamp. -/
def RegistryWF (r : Registry) : Prop :=
  ∀ p ∈ r.elems, p.2.inst < r.nextInst

instance (r : Registry) : Decidable (RegistryWF r) := by
  unfold RegistryWF
  infer_instance

/-- `getOrCreateAudioElement(soundId, url)`: reuse the registered element;
if its `src` differs from `url`, pause it and register a fresh element bound
to `url`; if none is registered, create and register one. `stopped` records
the previously stored element after its `pause()` call, when one was
replaced. -/
def getOrCreateAudioElement (r : Registry) (soundId url : String) :
    GetOrCreateResult :=
  match alLookup soundId r.elems with
  | none =>
    let audio : AudioElem := { inst := r.nextInst, src := url, paused := true }
    { audio := audio
      registry := { elems := alInsert soundId audio r.elems
                    nextInst := r.nextInst + 1 }
      stopped := none }
  | some audio =>
    if audio.src ≠ url then
      let fresh : AudioElem := { inst := r.nextInst, src := url, paused := true }
      { audio := fresh
        registry := { elems := alInsert soundId fresh r.elems
                      nextInst := r.nextInst + 1 }
        stopped := some { audio with paused := true } }
    else
      { audio := audio, registry := r, stopped := none }

@[simp]
theorem alLookup_nil (k : String) : alLookup k ([] : List (String × α)) = none :=
  rfl

@[simp]
theorem alLookup_cons (k : String) (p : String × α) (rest : List (String × α)) :
    alLookup k (p :: rest) = if p.1 = k then some p.2 else alLookup k rest :=
  rfl

theorem mem_of_alLookup {k : String} {a : α} {l : List (String × α)}
    (h : alLookup k l = some a) : (k, a) ∈ l := by
  induction l with
  | nil => simp at h
  | cons p rest ih =>
    obtain ⟨p1, p2⟩ := p
    rw [alLookup_cons] at h
    by_cases hp : p1 = k
    · simp only [hp, if_pos rfl] at h
      obtain rfl : p2 = a := Option.some.inj h
      subst hp
      exact List.mem_cons_self _ _
    · rw [if_neg hp] at h
      exact List.mem_cons_of_mem _ (ih h)

theorem getOrCreateAudioElement_of_none (r : Registry) (soundId url : String)
    (h : alLookup soundId r.elems = none) :
    getOrCreateAudioElement r soundId url =
      { audio := { inst := r.nextInst, src := url, paused := true }
        registry :=
          { elems := alInsert soundId
              { inst := r.nextInst, src := url, paused := true } r.elems
            nextInst := r.nextInst + 1 }
        stopped := none } := by
  simp [getOrCreateAudioElement, h]

theorem getOrCreateAudioElement_of_same (r : Registry) (soundId url : String)
    (a : AudioElem) (h : alLookup soundId r.elems = some a)
    (hsrc : a.src = url) :
    getOrCreateAudioElement r soundId url =
      { audio := a, registry := r, stopped := none } := by
  simp [getOrCreateAudioElement, h, hsrc]

theorem getOrCreateAudioElement_of_changed (r : Registry) (soundId url : String)
    (a : AudioElem) (h : alLookup soundId r.elems = some a)
    (hsrc : a.src ≠ url) :
    getOrCreateAudioElement r soundId url =
      { audio := { inst := r.nextInst, src := url, paused := true }
        registry :=
          { elems := alInsert soundId
              { inst := r.nextInst, src := url, paused := true } r.elems
            nextInst := r.nextInst + 1 }
        stopped := some { a with paused := true } } := by
  simp [getOrCreateAudioElement, h, hsrc]

theorem getOrCreateAudioElement_src (r : Registry) (soundId url : String) :
    (getOrCreateAudioElement r soundId url).audio.src = url ∧
    alLookup soundId (getOrCreateAudioElement r soundId url).registry.elems =
      some (getOrCreateAudioElement r soundId url).audio := by
  rcases hl : alLookup soundId r.elems with _ | audio
  · rw [getOrCreateAudioElement_of_none r soundId url hl]
    simp
  · by_cases h : audio.src = url
    · rw [getOrCreateAudioElement_of_same r soundId url audio hl h]
      exact ⟨h, by simpa using hl⟩
    · rw [getOrCreateAudioElement_of_changed r soundId url audio hl h]
      simp

/-- C6: (1) a second `getOrCreateAudioElement` call with the same locator
returns exactly the element the first call returned (the registry is left
unchanged); (2) when an element is registered for `soundId` and its bound
`src` differs from the requested locator, the call returns a distinct,
freshly created element bound to the new locator, and the previously stored
element is paused (stopped). -/
theorem getOrCreateAudioElement_reuse_and_replace (r : Registry)
    (soundId : String) (hwf : RegistryWF r) :
    (∀ url,
      (getOrCreateAudioElement
          (getOrCreateAudioElement r soundId url).registry soundId url).audio =
        (getOrCreateAudioElement r soundId url).audio ∧
      (getOrCreateAudioElement
          (getOrCreateAudioElement r soundId url).registry soundId url).registry =
        (getOrCreateAudioElement r soundId url).registry) ∧
    (∀ url' a, alLookup soundId r.elems = some a → a.src ≠ url' →
      (getOrCreateAudioElement r soundId url').audio ≠ a ∧
      (getOrCreateAudioElement r soundId url').audio.src = url' ∧
      (getOrCreateAudioElement r soundId url').stopped =
        some { a with paused := true }) := by
  constructor
  · intro url
    obtain ⟨hsrc, hlook⟩ := getOrCreateAudioElement_src r soundId url
    rw [getOrCreateAudioElement_of_same _ soundId url _ hlook hsrc]
    exact ⟨rfl, rfl⟩
  · intro url' a hla hne
    have hlt : a.inst < r.nextInst := hwf (soundId, a) (mem_of_alLookup hla)
    rw [getOrCreateAudioElement_of_changed r soundId url' a hla hne]
    refine ⟨?_, rfl, rfl⟩
    intro hcontra
    have : r.nextInst = a.inst := congrArg AudioElem.inst hcontra
    omega

/-- Witness for C6 at a concrete registry holding one element for id `"a"`
bound to `"u"`, queried with the same locator `"u"` and a changed locator
`"w"`. -/
theorem getOrCreateAudioElement_reuse_and_replace_witness :
    RegistryWF { elems := [("a", { inst := 0, src := "u", paused := false })]
                 nextInst := 1 } ∧
    alLookup "a"
      (Registry.elems { elems := [("a", { inst := 0, src := "u", paused := false })]
                        nextInst := 1 }) =
      some { inst := 0, src := "u", paused := false } ∧
    AudioElem.src { inst := 0, src := "u", paused := false } ≠ "w" ∧
    ((getOrCreateAudioElement
        (getOrCreateAudioElement
          { elems := [("a", { inst := 0, src := "u", paused := false })]
            nextInst := 1 } "a" "u").registry "a" "u").audio =
      (getOrCreateAudioElement
        { elems := [("a", { inst := 0, src := "u", paused := false })]
          nextInst := 1 } "a" "u").audio) ∧
    ((getOrCreateAudioElement
        { elems := [("a", { inst := 0, src := "u", paused := false })]
          nextInst := 1 } "a" "w").audio ≠
      { inst := 0, src := "u", paused := false } ∧
     (getOrCreateAudioElement
        { elems := [("a", { inst := 0, src := "u", paused := false })]
          nextInst := 1 } "a" "w").audio.src = "w" ∧
     (getOrCreateAudioElement
        { elems := [("a", { inst := 0, src := "u", paused := false })]
          nextInst := 1 } "a" "w").stopped =
       some { inst := 0, src := "u", paused := true }) :=
  ⟨by decide, by decide, by decide,
    ((getOrCreateAudioElement_reuse_and_replace
        { elems := [("a", { inst := 0, src := "u", paused := false })]
          nextInst := 1 } "a" (by decide)).1 "u").1,
    (getOrCreateAudioElement_reuse_and_replace
        { elems := [("a", { inst := 0, src := "u", paused := false })]
          nextInst := 1 } "a" (by decide)).2 "w"
      { inst := 0, src := "u", paused := false } (by decide) (by decide)⟩

/-! ## Durable storage (`SavedSoundsContext.tsx`, `getStoredSounds`)

The durable record is one `localStorage` string parsed with `JSON.parse`.
Parsed JSON values are modelled by `JVal`; `none` at the `getStoredSounds`
input stands for a missing record or a record `JSON.parse` throws on (the
`try`/`catch` turns both into the default return). -/

/-- Per-sound metadata (`SoundMetadata` in the source): optional volume
(0 to 100) and optional loop flag. -/
structure SoundMetadata where
  volume : Option ℚ
  loop : Option Bool
deriving DecidableEq

def defaultMeta : SoundMetadata := { volume := none, loop := none }

/-- `SavedSoundsStorage`: the shape of the durable record. `masterVolume`
is optional in the stored shape (some writers omit it). -/
structure SavedSoundsStorage where
  savedSounds : List String
  metadata : List (String × SoundMetadata)
  masterVolume : Option ℚ
deriving DecidableEq

/-- A parsed JSON value. -/
inductive JVal where
  | jstr (s : String)
  | jnum (n : ℚ)
  | jbool (b : Bool)
  | jnull
  | jarr (xs : List JVal)
  | jobj (fields : List (String × JVal))

/-- JS property access `v[k]`: defined on objects, `undefined` (`none`)
otherwise (the code only accesses properties behind a truthiness guard, so
access on `null` never happens). -/
def jField : JVal → String → Option JVal
  | JVal.jobj fields, k => alLookup k fields
  | _, _ => none

/-- The typed reading of one (untyped, uncast-validated in the source)
stored metadata entry: downstream reads are `metadata[id]?.volume` and
`metadata[id]?.loop`, so a non-number volume or non-boolean loop behaves
as absent. -/
def parseSoundMetadata (v : JVal) : SoundMetadata :=
  { volume := match jField v "volume" with
      | some (JVal.jnum n) => some n
      | _ => none
    loop := match jField v "loop" with
      | some (JVal.jbool b) => some b
      | _ => none }

/-- The default `getStoredSounds` result:
`{ savedSounds: [], metadata: {}, masterVolume: 100 }`. -/
def defaultStorage : SavedSoundsStorage :=
  { savedSounds := [], metadata := [], masterVolume := some 100 }

/-- Is an optional JSON value an array (`Array.isArray`)? -/
def jIsArr : Option JVal → Bool
  | some (JVal.jarr _) => true
  | _ => false

/-- `getStoredSounds()`: parse the stored record; when it is missing, fails
to parse, or its `savedSounds` field is not an array, return the defaults;
otherwise take the string entries of `savedSounds`, take `metadata` when it
is an object (else `{}`), and `masterVolume` when it is a number (else
`100`). The function is total: a malformed record never blocks startup. -/
def getStoredSounds (stored : Option JVal) : SavedSoundsStorage :=
  match stored with
  | none => defaultStorage
  | some parsed =>
    match jField parsed "savedSounds" with
    | some (JVal.jarr xs) =>
      { savedSounds := xs.filterMap (fun x => match x with
          | JVal.jstr s => some s
          | _ => none)
        metadata := match jField parsed "metadata" with
          | some (JVal.jobj fields) =>
            fields.map (fun p => (p.1, parseSoundMetadata p.2))
          | _ => []
        masterVolume := some (match jField parsed "masterVolume" with
          | some (JVal.jnum n) => n
          | _ => 100) }
    | _ => defaultStorage

/-- C9: a missing or unparseable durable record yields the defaults (empty
ordered sequence, empty metadata table, master volume 100), and so does any
record whose `savedSounds` field is not an array; `getStoredSounds` is a
total function, so startup is never blocked. -/
theorem getStoredSounds_defaults (j : JVal)
    (h : jIsArr (jField j "savedSounds") = false) :
    getStoredSounds none = defaultStorage ∧
    getStoredSounds (some j) = defaultStorage ∧
    defaultStorage.savedSounds = [] ∧
    defaultStorage.metadata = [] ∧
    defaultStorage.masterVolume = some 100 := by
  refine ⟨rfl, ?_, rfl, rfl, rfl⟩
  rcases hf : jField j "savedSounds" with _ | v
  · simp [getStoredSounds, hf]
  · cases v <;> simp_all [getStoredSounds, jIsArr]

/-- Witness for C9 at a concrete malformed record: an object whose
`savedSounds` field is a string rather than an array. -/
theorem getStoredSounds_defaults_witness :
    jIsArr (jField (JVal.jobj [("savedSounds", JVal.jstr "oops")])
        "savedSounds") = false ∧
    (getStoredSounds none = defaultStorage ∧
      getStoredSounds (some (JVal.jobj [("savedSounds", JVal.jstr "oops")])) =
        defaultStorage ∧
      defaultStorage.savedSounds = [] ∧
      defaultStorage.metadata = [] ∧
      defaultStorage.masterVolume = some 100) :=
  ⟨by decide,
    getStoredSounds_defaults (JVal.jobj [("savedSounds", JVal.jstr "oops")])
      (by decide)⟩

/-! ## Session Store (`SavedSoundsContext.tsx`)

The provider state: `savedSoundIds` (ordered member sequence), the
`metadataRef` side table, `masterVolume`, the resolved `savedSoundsMap`
(each entry carrying its audio-element attributes), and the durable record
last written by `saveToStorage`. `storage` is modelled as the record that
is durable once the mutation and the `useEffect` persistence pass for the
triggered re-render (if any) have run, i.e. at most one mutation behind
during the mutation itself (write-through).

Audio-element attributes are folded into the map entry: `audioVolume` is
`sound.audio.volume` (0 to 1), `audioLoop` is `sound.audio.loop`,
`audioPaused` is `sound.audio.paused`. -/

/-- A catalog entry (`Sound` in `src/api/sounds.ts`). -/
structure Sound where
  id : String
  name : String
  url : String
  category : String
  type : String
deriving DecidableEq

/-- A resolved session member (`SavedSound`): the catalog fields plus the
bound audio element and a volume field (0 to 100) read by the UI. -/
structure SavedSound where
  id : String
  name : String
  url : String
  volume : Option ℚ
  audioVolume : ℚ
  audioLoop : Bool
  audioPaused : Bool
deriving DecidableEq

structure SessionState where
  savedSoundIds : List String
  metadataRef : List (String × SoundMetadata)
  masterVolume : ℚ
  savedSoundsMap : List (String × SavedSound)
  storage : SavedSoundsStorage
deriving DecidableEq

/-- `addSound(id, sound, index?)`: a no-op when `id` is already a member;
otherwise seed from any retained metadata (`metadataRef.current[id] || {}`),
run `addSoundToCachedMap` (preserving an existing cached entry when one
exists, else creating a fresh one with volume `metadata?.volume ?? 100`
and loop `metadata?.loop ?? false`), and insert `id` at `index` when it is
given and in range `[0, length]`, else append. The effect hook then
persists `{ savedSounds, metadata, masterVolume }`. -/
def addSound (s : SessionState) (id : String) (sound : Sound)
    (index : Option Nat) : SessionState :=
  if id ∈ s.savedSoundIds then s
  else
    let soundMetadata := (alLookup id s.metadataRef).getD defaultMeta
    let entry : SavedSound :=
      match alLookup id s.savedSoundsMap with
      | some existing =>
        let volume := soundMetadata.volume.getD (existing.volume.getD 100)
        let lp := soundMetadata.loop.getD existing.audioLoop
        { existing with volume := some volume, audioVolume := volume / 100
                        audioLoop := lp }
      | none =>
        let volume := soundMetadata.volume.getD 100
        let lp := soundMetadata.loop.getD false
        { id := id, name := sound.name, url := sound.url
          volume := some volume, audioVolume := volume / 100
          audioLoop := lp, audioPaused := true }
    let newIds :=
      match index with
      | some i =>
        if i ≤ s.savedSoundIds.length then
          s.savedSoundIds.take i ++ id :: s.savedSoundIds.drop i
        else s.savedSoundIds ++ [id]
      | none => s.savedSoundIds ++ [id]
    { s with savedSoundIds := newIds
             savedSoundsMap := alInsert id entry s.savedSoundsMap
             storage := { savedSounds := newIds, metadata := s.metadataRef
                          masterVolume := some s.masterVolume } }

/-- `removeSound(id)`: `removeSoundFromCachedMap` pauses the registered
audio element and deletes the cached entry; the ordered sequence is
filtered; the metadata entry is deleted (`delete metadataRef.current[id]`);
the new sequence and metadata are persisted. -/
def removeSound (s : SessionState) (id : String) : SessionState :=
  let newIds := s.savedSoundIds.filter (fun soundId => soundId != id)
  let metadataAfter := alErase id s.metadataRef
  { savedSoundIds := newIds
    metadataRef := metadataAfter
    masterVolume := s.masterVolume
    savedSoundsMap := alErase id s.savedSoundsMap
    storage := { savedSounds := newIds, metadata := metadataAfter
                 masterVolume := some s.masterVolume } }

/-- An observable playback action on one audio element. -/
inductive FadeEvent where
  | fadeOutEvt (id : String)
  | pauseEvt (id : String)
deriving DecidableEq

/-- `clearAllSounds()`: for every saved sound whose audio element is not
paused, call `audio.pause()` directly (no fade), then set the ordered
sequence and the metadata table to empty and persist. The returned list is
the trace of playback actions performed, in map order. -/
def clearAllSounds (s : SessionState) : SessionState × List FadeEvent :=
  let events := s.savedSoundsMap.filterMap (fun p =>
    if p.2.audioPaused then none else some (FadeEvent.pauseEvt p.1))
  ({ savedSoundIds := []
     metadataRef := []
     masterVolume := s.masterVolume
     savedSoundsMap := s.savedSoundsMap.map (fun p =>
       (p.1, { p.2 with audioPaused := true }))
     storage := { savedSounds := [], metadata := []
                  masterVolume := some s.masterVolume } },
   events)

/-- `pauseAllSounds()`: for every saved sound whose audio element is not
paused, `await fadeOut(audio)` and then `audio.pause()`; per member the
fade precedes the pause. -/
def pauseAllSounds (s : SessionState) : SessionState × List FadeEvent :=
  let events := s.savedSoundsMap.filterMap (fun p =>
    if p.2.audioPaused then none
    else some [FadeEvent.fadeOutEvt p.1, FadeEvent.pauseEvt p.1])
  ({ s with savedSoundsMap := s.savedSoundsMap.map (fun p =>
       (p.1, { p.2 with audioVolume := 0, audioPaused := true })) },
   events.flatten)

/-- `reorderSounds(ids)`: `setSavedSoundIds(ids)` — the ordered sequence is
replaced wholesale, with no validation of any kind; the effect hook then
persists the new sequence. -/
def reorderSounds (s : SessionState) (ids : List String) : SessionState :=
  { s with savedSoundIds := ids
           storage := { savedSounds := ids, metadata := s.metadataRef
                        masterVolume := some s.masterVolume } }

/-- `setSoundVolume(id, volume)`: when `id` resolves in `savedSoundsMap`,
set the member volume, write `(volume / 100) * (masterVolume / 100)` to the
audio element, merge `{ volume }` into the metadata entry and persist;
otherwise nothing happens at all. -/
def setSoundVolume (s : SessionState) (id : String) (volume : ℚ) :
    SessionState :=
  match alLookup id s.savedSoundsMap with
  | none => s
  | some sound =>
    let updated := { sound with volume := some volume,
                                audioVolume :=
                                  volume / 100 * (s.masterVolume / 100) }
    let metadataAfter := alInsert id
      { (alLookup id s.metadataRef).getD defaultMeta with volume := some volume }
      s.metadataRef
    { s with savedSoundsMap := alInsert id updated s.savedSoundsMap
             metadataRef := metadataAfter
             storage := { savedSounds := s.savedSoundIds
                          metadata := metadataAfter
                          masterVolume := some s.masterVolume } }

/-- `setSoundLoop(id, loop)`: when `id` resolves in `savedSoundsMap`, set
the audio element loop flag, merge `{ loop }` into the metadata entry and
persist; otherwise nothing happens at all. -/
def setSoundLoop (s : SessionState) (id : String) (loopFlag : Bool) :
    SessionState :=
  match alLookup id s.savedSoundsMap with
  | none => s
  | some sound =>
    let updated := { sound with audioLoop := loopFlag }
    let metadataAfter := alInsert id
      { (alLookup id s.metadataRef).getD defaultMeta with loop := some loopFlag }
      s.metadataRef
    { s with savedSoundsMap := alInsert id updated s.savedSoundsMap
             metadataRef := metadataAfter
             storage := { savedSounds := s.savedSoundIds
                          metadata := metadataAfter
                          masterVolume := some s.masterVolume } }

/-- `setMasterVolume(volume)`: update the scalar and, in one pass over
`savedSoundsMap`, write `((sound.volume ?? 100) / 100) * (volume / 100)` to
every member audio element, then persist. -/
def setMasterVolume (s : SessionState) (volume : ℚ) : SessionState :=
  { s with masterVolume := volume
           savedSoundsMap := s.savedSoundsMap.map (fun p =>
             (p.1, { p.2 with
               audioVolume := p.2.volume.getD 100 / 100 * (volume / 100) }))
           storage := { savedSounds := s.savedSoundIds
                        metadata := s.metadataRef
                        masterVolume := some volume } }

/-- The mixer base volume of a member (`savedSoundsMap` memo):
`metadataRef.current[id]?.volume ?? sound.volume ?? 100`. -/
def memberVolume (s : SessionState) (id : String) : ℚ :=
  match alLookup id s.savedSoundsMap with
  | none => 100
  | some sound =>
    (((alLookup id s.metadataRef).bind SoundMetadata.volume).getD
      (sound.volume.getD 100))

/-- The mixer loop flag of a member:
`metadataRef.current[id]?.loop`, defaulting to `false`. -/
def memberLoop (s : SessionState) (id : String) : Bool :=
  ((alLookup id s.metadataRef).bind SoundMetadata.loop).getD false

/-- The effective-volume law as a state invariant: every resolved member
audio element carries exactly
`((sound.volume ?? 100) / 100) * (masterVolume / 100)`. -/
def effectiveVolumeInvariant (s : SessionState) : Prop :=
  ∀ p ∈ s.savedSoundsMap,
    p.2.audioVolume = p.2.volume.getD 100 / 100 * (s.masterVolume / 100)

instance (s : SessionState) : Decidable (effectiveVolumeInvariant s) := by
  unfold effectiveVolumeInvariant
  infer_instance

/-! ## Characterization lemmas for the session mutators -/

theorem setSoundVolume_of_none (s : SessionState) (id : String) (v : ℚ)
    (h : alLookup id s.savedSoundsMap = none) :
    setSoundVolume s id v = s := by
  simp [setSoundVolume, h]

theorem setSoundLoop_of_none (s : SessionState) (id : String) (fl : Bool)
    (h : alLookup id s.savedSoundsMap = none) :
    setSoundLoop s id fl = s := by
  simp [setSoundLoop, h]

theorem setSoundVolume_of_some (s : SessionState) (id : String) (v : ℚ)
    (sound : SavedSound) (h : alLookup id s.savedSoundsMap = some sound) :
    setSoundVolume s id v =
      { s with
          savedSoundsMap := alInsert id
            { sound with volume := some v,
                         audioVolume := v / 100 * (s.masterVolume / 100) }
            s.savedSoundsMap
          metadataRef := alInsert id
            { (alLookup id s.metadataRef).getD defaultMeta with
                volume := some v } s.metadataRef
          storage :=
            { savedSounds := s.savedSoundIds
              metadata := alInsert id
                { (alLookup id s.metadataRef).getD defaultMeta with
                    volume := some v } s.metadataRef
              masterVolume := some s.masterVolume } } := by
  simp [setSoundVolume, h]

theorem setSoundVolume_savedSoundIds (s : SessionState) (id : String)
    (v : ℚ) : (setSoundVolume s id v).savedSoundIds = s.savedSoundIds := by
  cases h : alLookup id s.savedSoundsMap with
  | none => rw [setSoundVolume_of_none s id v h]
  | some sound => rw [setSoundVolume_of_some s id v sound h]

theorem setSoundLoop_savedSoundIds (s : SessionState) (id : String)
    (fl : Bool) : (setSoundLoop s id fl).savedSoundIds = s.savedSoundIds := by
  unfold setSoundLoop
  cases alLookup id s.savedSoundsMap <;> rfl

theorem not_mem_filter_ne (l : List String) (i : String) :
    i ∉ l.filter (fun x => x != i) := by
  intro h
  have := List.of_mem_filter h
  simp at this

theorem nodup_insert_middle (l : List String) (i : Nat) (a : String)
    (ha : a ∉ l) (hl : l.Nodup) :
    (l.take i ++ a :: l.drop i).Nodup := by
  have htd : (l.take i ++ l.drop i).Nodup := by
    rwa [List.take_append_drop]
  rw [List.nodup_append] at htd ⊢
  obtain ⟨h1, h2, h3⟩ := htd
  refine ⟨h1, ?_, ?_⟩
  · rw [List.nodup_cons]
    exact ⟨fun hc => ha (List.drop_subset _ _ hc), h2⟩
  · intro x hx hc
    rcases List.mem_cons.mp hc with rfl | hc2
    · exact ha (List.take_subset _ _ hx)
    · exact h3 hx hc2

/-! ## Example states used by the concrete theorems -/

def soundA2 : Sound :=
  { id := "a", name := "A2", url := "u2", category := "", type := "" }

def soundD : Sound :=
  { id := "d", name := "D", url := "ud", category := "", type := "" }

/-- A member with user-tuned volume 40 and loop on, currently playing at
the effective volume `40/100 * 100/100`. -/
def memberA : SavedSound :=
  { id := "a", name := "A", url := "u", volume := some 40,
    audioVolume := 40 / 100 * (100 / 100), audioLoop := true,
    audioPaused := false }

/-- Session with one member `"a"` whose metadata records volume 40 and
loop `true`. -/
def ex1 : SessionState :=
  { savedSoundIds := ["a"]
    metadataRef := [("a", { volume := some 40, loop := some true })]
    masterVolume := 100
    savedSoundsMap := [("a", memberA)]
    storage := defaultStorage }

/-- Session with the ordered sequence `["a", "b", "c"]`. -/
def ex2 : SessionState :=
  { savedSoundIds := ["a", "b", "c"]
    metadataRef := []
    masterVolume := 100
    savedSoundsMap := []
    storage := defaultStorage }

/-! ## C1 — metadata across a remove / re-add round trip -/

/-- C1 counterexample: in `ex1`, member `"a"` has volume 40 and loop `true`;
after `removeSound("a")` then `addSound("a", hint2)` the member volume is
not 40 and the loop flag is not `true` (they are back at the defaults),
contradicting the claim that the pre-removal values are restored. -/
theorem metadata_round_trip_fails :
    memberVolume ex1 "a" = 40 ∧ memberLoop ex1 "a" = true ∧
    memberVolume (addSound (removeSound ex1 "a") "a" soundA2 none) "a" ≠ 40 ∧
    memberLoop (addSound (removeSound ex1 "a") "a" soundA2 none) "a" ≠ true := by
  decide

/-- C1 amended: `removeSound` deletes the retained metadata entry, so for
every member `i` whose metadata records volume `v` and loop `l`, the call
sequence `removeSound(i)` then `addSound(i, hint2)` yields the defaults
(volume 100, loop `false`), not the values set before removal. -/
theorem remove_then_add_resets_to_defaults (s : SessionState) (i : String)
    (v : ℚ) (l : Bool) (hint2 : Sound) (index : Option Nat)
    (_hmem : i ∈ s.savedSoundIds)
    (_hmeta : alLookup i s.metadataRef =
      some { volume := some v, loop := some l }) :
    memberVolume (addSound (removeSound s i) i hint2 index) i = 100 ∧
    memberLoop (addSound (removeSound s i) i hint2 index) i = false := by
  have h1 : i ∉ (removeSound s i).savedSoundIds := not_mem_filter_ne _ _
  have h2 : alLookup i (removeSound s i).savedSoundsMap = none :=
    alLookup_alErase_self i s.savedSoundsMap
  have h3 : alLookup i (removeSound s i).metadataRef = none :=
    alLookup_alErase_self i s.metadataRef
  constructor
  · simp [memberVolume, addSound, h1, h2, h3, defaultMeta]
  · simp [memberLoop, addSound, h1, h2, h3, defaultMeta]

/-- Witness for the amended C1 at the concrete session `ex1`. -/
theorem remove_then_add_resets_to_defaults_witness :
    "a" ∈ ex1.savedSoundIds ∧
    alLookup "a" ex1.metadataRef =
      some { volume := some 40, loop := some true } ∧
    (memberVolume (addSound (removeSound ex1 "a") "a" soundA2 none) "a" = 100 ∧
     memberLoop (addSound (removeSound ex1 "a") "a" soundA2 none) "a" = false) :=
  ⟨by decide, by decide,
    remove_then_add_resets_to_defaults ex1 "a" 40 true soundA2 none
      (by decide) (by decide)⟩

/-! ## C2 — reorder -/

/-- C2 counterexample: `["x", "a", "c"]` is not a permutation of the
members of `ex2`, yet `reorderSounds` replaces the sequence with it rather
than leaving the sequence unchanged. -/
theorem reorder_non_permutation_not_noop :
    ¬ List.Perm ["x", "a", "c"] ex2.savedSoundIds ∧
    (reorderSounds ex2 ["x", "a", "c"]).savedSoundIds ≠ ex2.savedSoundIds := by
  constructor
  · decide
  · decide

/-- C2 amended: `reorderSounds(newIds)` replaces the ordered sequence with
`newIds` wholesale and unconditionally — for a permutation of the current
members the sequence becomes exactly the new sequence, but a
non-permutation input is applied just the same (no validation, no no-op). -/
theorem reorderSounds_replaces_wholesale (s : SessionState)
    (ids : List String) : (reorderSounds s ids).savedSoundIds = ids := rfl

/-! ## C3 — the no-duplicate invariant -/

/-- C3 counterexample: from the duplicate-free state `ex2`,
`reorderSounds ["a", "a", "c"]` yields an ordered sequence with a
duplicate identifier, so not every mutator preserves the invariant. -/
theorem reorder_breaks_nodup :
    ex2.savedSoundIds.Nodup ∧
    ¬ (reorderSounds ex2 ["a", "a", "c"]).savedSoundIds.Nodup := by
  constructor
  · decide
  · decide

/-- C3 amended: every Session Store mutator except `reorderSounds`
(`addSound`, `removeSound`, `setSoundVolume`, `setSoundLoop`,
`setMasterVolume`, `clearAllSounds`) preserves the no-duplicate invariant
of the ordered sequence; `reorderSounds` performs no validation and can
break it. -/
theorem session_mutators_preserve_nodup (s : SessionState) (id : String)
    (sound : Sound) (index : Option Nat) (v m : ℚ) (fl : Bool)
    (h : s.savedSoundIds.Nodup) :
    (addSound s id sound index).savedSoundIds.Nodup ∧
    (removeSound s id).savedSoundIds.Nodup ∧
    (setSoundVolume s id v).savedSoundIds.Nodup ∧
    (setSoundLoop s id fl).savedSoundIds.Nodup ∧
    (setMasterVolume s m).savedSoundIds.Nodup ∧
    (clearAllSounds s).1.savedSoundIds.Nodup := by
  refine ⟨?_, ?_, ?_, ?_, ?_, ?_⟩
  · by_cases hmem : id ∈ s.savedSoundIds
    · simpa [addSound, hmem] using h
    · have happ : (s.savedSoundIds ++ [id]).Nodup := by
        have := nodup_insert_middle s.savedSoundIds s.savedSoundIds.length id
          hmem h
        simpa using this
      cases index with
      | none => simpa [addSound, hmem] using happ
      | some i =>
        by_cases hi : i ≤ s.savedSoundIds.length
        · simpa [addSound, hmem, hi] using
            nodup_insert_middle s.savedSoundIds i id hmem h
        · simpa [addSound, hmem, hi] using happ
  · exact h.filter _
  · rw [setSoundVolume_savedSoundIds]
    exact h
  · rw [setSoundLoop_savedSoundIds]
    exact h
  · exact h
  · exact List.nodup_nil

/-- Witness for the amended C3 at the concrete session `ex2`. -/
theorem session_mutators_preserve_nodup_witness :
    ex2.savedSoundIds.Nodup ∧
    ((addSound ex2 "b" soundD (some 1)).savedSoundIds.Nodup ∧
     (removeSound ex2 "b").savedSoundIds.Nodup ∧
     (setSoundVolume ex2 "b" 30).savedSoundIds.Nodup ∧
     (setSoundLoop ex2 "b" true).savedSoundIds.Nodup ∧
     (setMasterVolume ex2 50).savedSoundIds.Nodup ∧
     (clearAllSounds ex2).1.savedSoundIds.Nodup) :=
  ⟨by decide,
    session_mutators_preserve_nodup ex2 "b" soundD (some 1) 30 50 true
      (by decide)⟩

/-! ## C4 — the effective volume law -/

/-- C4: `setSoundVolume` preserves and `setMasterVolume` (re)establishes the
effective volume law — after either call, every resolved member audio
element carries exactly `(memberVolume / 100) * (masterVolume / 100)`,
where `memberVolume` is the member stored volume and `masterVolume` the
session master volume. -/
theorem effective_volume_law (s : SessionState) (id : String) (v m : ℚ)
    (h : effectiveVolumeInvariant s) :
    effectiveVolumeInvariant (setSoundVolume s id v) ∧
    effectiveVolumeInvariant (setMasterVolume s m) := by
  constructor
  · cases hl : alLookup id s.savedSoundsMap with
    | none =>
      rw [setSoundVolume_of_none s id v hl]
      exact h
    | some sound =>
      rw [setSoundVolume_of_some s id v sound hl]
      intro p hp
      rcases mem_alInsert hp with hp1 | hp1
      · subst hp1
        simp
      · exact h p hp1
  · intro p hp
    simp only [setMasterVolume, List.mem_map] at hp
    rcases hp with ⟨q, _, rfl⟩
    simp [setMasterVolume]

/-- Witness for C4 at the concrete session `ex1` (where the invariant
holds), with a member volume change to 30 and a master volume change
to 50. -/
theorem effective_volume_law_witness :
    effectiveVolumeInvariant ex1 ∧
    (effectiveVolumeInvariant (setSoundVolume ex1 "a" 30) ∧
     effectiveVolumeInvariant (setMasterVolume ex1 50)) :=
  ⟨by simp [effectiveVolumeInvariant, ex1, memberA],
    effective_volume_law ex1 "a" 30 50
      (by simp [effectiveVolumeInvariant, ex1, memberA])⟩

/-! ## C5 — idempotent add -/

/-- C5: adding an id that is already a member is a complete no-op — the
whole session state (in particular the ordered sequence and the metadata
table) is unchanged. -/
theorem addSound_idempotent (s : SessionState) (id : String) (sound : Sound)
    (index : Option Nat) (h : id ∈ s.savedSoundIds) :
    addSound s id sound index = s := by
  simp [addSound, h]

/-- Witness for C5 at the concrete session `ex1` and an id already
present. -/
theorem addSound_idempotent_witness :
    "a" ∈ ex1.savedSoundIds ∧ addSound ex1 "a" soundA2 (some 0) = ex1 :=
  ⟨by decide, addSound_idempotent ex1 "a" soundA2 (some 0) (by decide)⟩

/-! ## C8 — clear -/

/-- A session with one currently playing member `"a"`. -/
def exPlaying : SessionState :=
  { savedSoundIds := ["a"]
    metadataRef := []
    masterVolume := 100
    savedSoundsMap := [("a",
      { id := "a", name := "A", url := "u", volume := some 100,
        audioVolume := 1, audioLoop := false, audioPaused := false })]
    storage := defaultStorage }

/-- C8 counterexample: in `exPlaying`, member `"a"` is playing;
`clearAllSounds` pauses it but performs no fade-out at all, contradicting
the claim that every playing member is faded to zero before being
paused. -/
theorem clear_pauses_without_fade :
    FadeEvent.pauseEvt "a" ∈ (clearAllSounds exPlaying).2 ∧
    FadeEvent.fadeOutEvt "a" ∉ (clearAllSounds exPlaying).2 := by
  constructor
  · decide
  · decide

/-- C8 amended: `clearAllSounds` pauses every currently playing member
immediately (an immediate cut — its action trace contains only pause
actions, no fade), and afterwards the ordered sequence and the metadata
table are both empty. -/
theorem clearAllSounds_immediate_pause (s : SessionState) :
    (clearAllSounds s).1.savedSoundIds = [] ∧
    (clearAllSounds s).1.metadataRef = [] ∧
    (∀ e ∈ (clearAllSounds s).2, ∃ i, e = FadeEvent.pauseEvt i) ∧
    (∀ p ∈ s.savedSoundsMap, p.2.audioPaused = false →
      FadeEvent.pauseEvt p.1 ∈ (clearAllSounds s).2) := by
  refine ⟨rfl, rfl, ?_, ?_⟩
  · intro e he
    simp only [clearAllSounds, List.mem_filterMap] at he
    rcases he with ⟨p, _, hfp⟩
    by_cases hpause : p.2.audioPaused
    · simp [hpause] at hfp
    · rw [if_neg hpause] at hfp
      exact ⟨p.1, (Option.some.inj hfp).symm⟩
  · intro p hp hpaused
    simp only [clearAllSounds, List.mem_filterMap]
    exact ⟨p, hp, by simp [hpaused]⟩

/-- Witness for the amended C8 at the concrete session `exPlaying`. -/
theorem clearAllSounds_immediate_pause_witness :
    (clearAllSounds exPlaying).1.savedSoundIds = [] ∧
    (clearAllSounds exPlaying).1.metadataRef = [] ∧
    (∃ i, FadeEvent.pauseEvt "a" = FadeEvent.pauseEvt i) ∧
    FadeEvent.pauseEvt "a" ∈ (clearAllSounds exPlaying).2 :=
  ⟨(clearAllSounds_immediate_pause exPlaying).1,
   (clearAllSounds_immediate_pause exPlaying).2.1,
   (clearAllSounds_immediate_pause exPlaying).2.2.1
     (FadeEvent.pauseEvt "a") (by decide),
   (clearAllSounds_immediate_pause exPlaying).2.2.2
     ("a", { id := "a", name := "A", url := "u", volume := some 100,
             audioVolume := 1, audioLoop := false, audioPaused := false })
     (by decide) (by decide)⟩

/-! ## C10 — missing-member setters are complete no-ops -/

/-- C10: when `id` does not resolve in `savedSoundsMap`, `setSoundVolume`
and `setSoundLoop` leave the whole session state unchanged — in particular
the ordered sequence, the metadata table, the master volume, and the
durable stored record; no partial write occurs. -/
theorem setters_noop_when_missing (s : SessionState) (id : String) (v : ℚ)
    (fl : Bool) (h : alLookup id s.savedSoundsMap = none) :
    setSoundVolume s id v = s ∧ setSoundLoop s id fl = s :=
  ⟨setSoundVolume_of_none s id v h, setSoundLoop_of_none s id fl h⟩

/-- Witness for C10 at the concrete session `ex1` and the absent id
`"z"`. -/
theorem setters_noop_when_missing_witness :
    alLookup "z" ex1.savedSoundsMap = none ∧
    (setSoundVolume ex1 "z" 10 = ex1 ∧ setSoundLoop ex1 "z" true = ex1) :=
  ⟨by decide, setters_noop_when_missing ex1 "z" 10 true (by decide)⟩

end Soundboard
